import Mathlib

/-!
Verification of the extensor-cache core against its specification.

The development shallowly embeds the four core pieces of the library:
the pattern matcher (`src/patternMatching.js`), the in-memory TTL store
(`src/inMemoryStoreAdapter`), the configuration model
(`src/globalConfig`, `src/keyConfig`) and the cache dispatcher with its
write-back retry scheduler (`src/extensorCache`).  JavaScript strings are
modelled as `String`/`List Char`, JS `undefined` as `Option.none`,
promise rejection and thrown errors as `Except.error`, and wall-clock
instants as integers counting milliseconds.
-/

namespace ExtensorSpec

/-- Segment of a key pattern: a single literal character, or a named
placeholder.  In the source a pattern is a raw string; the global lazy
regular expression `{(.*?)}` decomposes it into literal characters and
`{name}` placeholders, which this type records. -/
inductive Seg where
  | lit (c : Char)
  | param (name : List Char)
deriving DecidableEq, Repr

/-- Line terminators of ECMAScript: `.` in a JS regular expression (no
`s` flag) matches any character except these.  The lazy `.*?` in both
`{(.*?)}` (pattern decomposition) and `(?<name>.*?)` (placeholder
matching) therefore never consumes one of them. -/
def isLineTerm (c : Char) : Bool :=
  c = '\n' || c = '\r' || c = Char.ofNat 0x2028 || c = Char.ofNat 0x2029

/-- Scan for the first `}` in the input, as the lazy `(.*?)}` tail of the
placeholder regular expression does.  Returns the characters before the
`}` (the placeholder name) and the characters after it.  Fails when no
`}` occurs, or when a line terminator appears first (`.` cannot match
it, so the JS regex does not recognise a placeholder there). -/
def findCloseBrace : List Char → Option (List Char × List Char)
  | [] => none
  | c :: cs =>
    if c = '}' then some ([], cs)
    else if isLineTerm c then none
    else
      match findCloseBrace cs with
      | some (name, rest) => some (c :: name, rest)
      | none => none

/-- Fueled worker for `parsePattern`.  Each step consumes at least one
character, so fuel equal to the input length suffices; the fuel only
makes the recursion structural. -/
def parsePatternAux : Nat → List Char → List Seg
  | 0, _ => []
  | _ + 1, [] => []
  | fuel + 1, c :: cs =>
    if c = '{' then
      match findCloseBrace cs with
      | some (name, rest) => Seg.param name :: parsePatternAux fuel rest
      | none => Seg.lit c :: parsePatternAux fuel cs
    else Seg.lit c :: parsePatternAux fuel cs

/-- Decompose a pattern the way the source's global regular expression
`/{(.*?)}/g` does (used by both `checkForMatch` via `String.replace` and
`keyPatternIsValid` via `String.match`): scan left to right; at a `{`
whose first following `}` is reachable without a line terminator, emit a
placeholder named by the characters between the braces; every other
character is a literal. -/
def parsePattern (p : List Char) : List Seg :=
  parsePatternAux p.length p

/-- Names of the placeholders of a segment list, in order. -/
def segNames (segs : List Seg) : List (List Char) :=
  segs.filterMap fun s =>
    match s with
    | Seg.param n => some n
    | Seg.lit _ => none

/-- Placeholder names of a pattern string, in order of occurrence; the
model of `pattern.match(/{(.*?)}/g)` with the braces stripped from each
match (`name.slice(1, -1)` in the source). -/
def placeholderNames (pattern : String) : List (List Char) :=
  segNames (parsePattern pattern.data)

/-- Direct model of `keyPatternIsValid` from `src/patternMatching.js`:
no placeholders is valid; duplicate names, an empty name, or a name
containing a brace character is invalid; anything else is valid. -/
def keyPatternIsValid (pattern : String) : Bool :=
  let parameterNames := placeholderNames pattern
  if parameterNames = [] then true
  else if ¬ parameterNames.dedup.length = parameterNames.length then false
  else if parameterNames.any (fun n => n.isEmpty) then false
  else if parameterNames.any (fun n => n.contains '{' || n.contains '}') then false
  else true

/-- First character of an ECMAScript capture-group name (ASCII
fragment): a letter, `_` or `$`.  `checkForMatch` interpolates each
placeholder name into `(?<name>.*?)`; `new RegExp` throws a
`SyntaxError` when the name is not an identifier, e.g. when it starts
with a digit. -/
def groupNameStartChar (c : Char) : Bool :=
  c.isAlpha || c = '_' || c = '$'

/-- Subsequent character of an ECMAScript capture-group name (ASCII
fragment): a letter, a digit, `_` or `$`. -/
def groupNamePartChar (c : Char) : Bool :=
  c.isAlphanum || c = '_' || c = '$'

/-- Whether a placeholder name is a valid ECMAScript capture-group name
(restricted to the ASCII identifier alphabet). -/
def groupNameValid : List Char → Bool
  | [] => false
  | c :: cs => groupNameStartChar c && cs.all groupNamePartChar

/-- Characters with syntactic meaning in an ECMAScript regular
expression.  `checkForMatch` splices the pattern's literal text verbatim
into a regex, so the embedding is faithful exactly when no literal
character is one of these; theorems about matching carry that bound as
the hypothesis `litSafe`. -/
def regexSyntaxChar (c : Char) : Bool :=
  ['^', '$', '\\', '.', '*', '+', '?', '(', ')', '[', ']', '{', '}', '|'].contains c

/-- A segment list whose literal characters are all free of regex
metacharacters: on these patterns the compiled regex matches literals
verbatim and the embedding below coincides with the JS semantics. -/
def litSafe (segs : List Seg) : Bool :=
  segs.all fun s =>
    match s with
    | Seg.lit c => !(regexSyntaxChar c)
    | Seg.param _ => true

/-- Backtracking matcher for the anchored regex
`^lit₀(?<n₁>.*?)lit₁(?<n₂>.*?)…litₖ$` that `checkForMatch` compiles: a
literal consumes exactly its character; a lazy group tries capture
lengths from shortest to longest (never capturing a line terminator,
since `.` cannot match one), committing to the first length under which
the rest of the regex matches.  Returns the captures in group order. -/
def matchSegs : List Seg → List Char → Option (List (List Char × List Char))
  | [], k => if k = [] then some [] else none
  | Seg.lit c :: rest, k =>
    match k with
    | [] => none
    | x :: xs => if x = c then matchSegs rest xs else none
  | Seg.param n :: rest, k =>
    (List.range (k.length + 1)).findSome? fun len =>
      if (k.take len).all (fun c => !(isLineTerm c)) then
        (matchSegs rest (k.drop len)).map (fun ps => (n, k.take len) :: ps)
      else none

/-- Successful result of `checkForMatch`: the extracted parameter values
keyed by placeholder name (in group order), and the original key. -/
structure MatchResult where
  params : List (List Char × List Char)
  key : List Char
deriving DecidableEq, Repr

/-- Outcome of `checkForMatch`: the construction of the regular
expression threw, the key did not match, or it matched with extracted
parameters. -/
inductive MatchOutcome where
  | thrown
  | noMatch
  | matched (r : MatchResult)
deriving DecidableEq, Repr

/-- Model of `checkForMatch` from `src/patternMatching.js`.  The source
replaces each `{name}` with `(?<name>.*?)` and runs
`key.match(new RegExp("^…$"))`.  `new RegExp` throws a `SyntaxError`
when some capture-group name is not a valid identifier or when two
groups share a name (`thrown`); otherwise the anchored lazy match of
`matchSegs` decides between `noMatch` and `matched`.  The embedding is
faithful for patterns whose literal text is `litSafe`; theorems below
restrict to that domain. -/
def checkForMatch (pattern key : String) : MatchOutcome :=
  let segs := parsePattern pattern.data
  let names := segNames segs
  if (∀ n ∈ names, groupNameValid n = true) ∧ names.Nodup then
    match matchSegs segs key.data with
    | none => MatchOutcome.noMatch
    | some ps => MatchOutcome.matched ⟨ps, key.data⟩
  else MatchOutcome.thrown

/-- Substitution of extracted values back into the pattern's literal
skeleton: each literal character stands, and each placeholder is
replaced by the next extracted value in group order (the groups appear
in placeholder order, see `matchSegs_names`). -/
def substSegs : List Seg → List (List Char × List Char) → List Char
  | [], _ => []
  | Seg.lit c :: rest, ps => c :: substSegs rest ps
  | Seg.param _ :: rest, [] => substSegs rest []
  | Seg.param _ :: rest, p :: ps => p.2 ++ substSegs rest ps

/-- The list `v` occurs contiguously inside `k` (substring in the
spec's sense, possibly empty). -/
def isSubstringOf (v k : List Char) : Prop :=
  ∃ s t, k = s ++ v ++ t

/-- Invalidity of a pattern in exactly the words of the specification:
it contains a duplicate placeholder name, an empty placeholder name, or
a placeholder name containing a brace character. -/
def specPatternInvalid (p : String) : Prop :=
  ¬ (placeholderNames p).Nodup ∨
  [] ∈ placeholderNames p ∨
  ∃ n ∈ placeholderNames p, '{' ∈ n ∨ '}' ∈ n

/-- Read strategies of `src/readStrategies` (CACHE_ONLY, READ_THROUGH,
READ_AROUND). -/
inductive ReadStrategies where
  | cacheOnly
  | readThrough
  | readAround
deriving DecidableEq, Repr

/-- Write strategies of `src/writeStrategies` (CACHE_ONLY,
WRITE_THROUGH, WRITE_BACK). -/
inductive WriteStrategies where
  | cacheOnly
  | writeThrough
  | writeBack
deriving DecidableEq, Repr

/-- A `GlobalConfig` instance: the seven policy fields, all of which
the constructor assigns as own properties. -/
structure GlobalConfig where
  ttl : Nat
  readStrategy : ReadStrategies
  writeStrategy : WriteStrategies
  writeRetryCount : Nat
  writeRetryInterval : Nat
  writeRetryBackoff : Bool
  writeRetryIntervalCap : Nat
deriving Repr

/-- The `GlobalConfig` constructor: optional arguments model JS default
parameters (`none` = argument omitted); the retry fields are assigned
fixed built-in values. -/
def GlobalConfig.make (ttl? : Option Nat) (readStrategy? : Option ReadStrategies)
    (writeStrategy? : Option WriteStrategies) : GlobalConfig :=
  { ttl := ttl?.getD 0
    readStrategy := readStrategy?.getD ReadStrategies.cacheOnly
    writeStrategy := writeStrategy?.getD WriteStrategies.cacheOnly
    writeRetryCount := 1
    writeRetryInterval := 1000
    writeRetryBackoff := true
    writeRetryIntervalCap := 60 * 60 * 1000 }

/-- Context handed to caller-supplied callbacks: the concrete key and
the parameters extracted by the matched pattern. -/
structure MatchedRouteContext where
  key : String
  params : List (List Char × List Char)
deriving DecidableEq, Repr

/-- A caller-supplied callback.  The extra `Nat` argument indexes the
invocation (0 for the first try), letting a single pure function model a
stateful callback whose outcome varies across write-back retries;
`Except.error` models a rejected promise / thrown error, `Option α`
models a JS value where `none` is `undefined`. -/
def Callback (α : Type) := MatchedRouteContext → Nat → Except String (Option α)

/-- A `KeyConfig` instance.  The constructor (via `super`) assigns every
one of these fields as an own property of the object — `ttl`,
`readStrategy` and `writeStrategy` get the caller's argument or a
built-in default, the four retry fields get the same fixed built-ins as
`GlobalConfig`, and `evictCallback`/`updateCallback` are initialised
unconditionally. -/
structure KeyConfig (α : Type) where
  pattern : String
  ttl : Nat
  readStrategy : ReadStrategies
  writeStrategy : WriteStrategies
  writeRetryCount : Nat
  writeRetryInterval : Nat
  writeRetryBackoff : Bool
  writeRetryIntervalCap : Nat
  readCallback : Callback α
  writeCallback : Callback α
  evictCallback : Callback α
  updateCallback : Option (Callback α)

/-- The `KeyConfig` constructor from `src/keyConfig.ts`: optional
arguments model JS default parameters.  Note that an omitted `ttl`
becomes the concrete own property `0`, not an absent field. -/
def KeyConfig.make (α : Type) (pattern : String) (ttl? : Option Nat)
    (readCallback? : Option (Callback α)) (readStrategy? : Option ReadStrategies)
    (writeCallback? : Option (Callback α)) (writeStrategy? : Option WriteStrategies) :
    KeyConfig α :=
  { pattern := pattern
    ttl := ttl?.getD 0
    readStrategy := readStrategy?.getD ReadStrategies.cacheOnly
    writeStrategy := writeStrategy?.getD WriteStrategies.cacheOnly
    writeRetryCount := 1
    writeRetryInterval := 1000
    writeRetryBackoff := true
    writeRetryIntervalCap := 60 * 60 * 1000
    readCallback := readCallback?.getD (fun _ _ => Except.ok none)
    writeCallback := writeCallback?.getD (fun _ _ => Except.ok none)
    evictCallback := fun _ _ => Except.ok none
    updateCallback := none }

/-- The merge `{ ...globalConfig, ...config }` in `register`: the spread
copies the global's own enumerable properties and then overwrites each
with `config`'s own properties.  Because the `KeyConfig` constructor
assigns *every* policy field as an own property (see `KeyConfig.make`),
the per-pattern side wins for every field; no value of the global
default survives into the registered route. -/
def spreadMerge {α : Type} (_g : GlobalConfig) (c : KeyConfig α) : KeyConfig α :=
  { pattern := c.pattern
    ttl := c.ttl
    readStrategy := c.readStrategy
    writeStrategy := c.writeStrategy
    writeRetryCount := c.writeRetryCount
    writeRetryInterval := c.writeRetryInterval
    writeRetryBackoff := c.writeRetryBackoff
    writeRetryIntervalCap := c.writeRetryIntervalCap
    readCallback := c.readCallback
    writeCallback := c.writeCallback
    evictCallback := c.evictCallback
    updateCallback := c.updateCallback }

/-- Entry of the in-memory TTL store: value (`none` = the JS value
`undefined`), TTL in seconds, creation instant and absolute expiry
instant in milliseconds.  `put` computes
`expires = created.setSeconds(created.getSeconds() + ttl)`, i.e. the
creation instant advanced by `ttl` seconds. -/
structure CacheEntry (α : Type) where
  value : Option α
  ttl : Nat
  created : Int
  expires : Int
deriving DecidableEq, Repr

/-- State of `InMemoryStoreAdapter`'s backing object: association list
from keys to entries (the dispatcher maintains at most one entry per
key, mirroring a JS object's unique property keys). -/
abbrev StoreState (α : Type) := List (String × CacheEntry α)

/-- Property lookup on the backing object. -/
def storeLookup {α : Type} : StoreState α → String → Option (CacheEntry α)
  | [], _ => none
  | (k, e) :: rest, key => if k = key then some e else storeLookup rest key

/-- Property assignment on the backing object: overwrite in place, or
append a new property. -/
def storeSet {α : Type} : StoreState α → String → CacheEntry α → StoreState α
  | [], key, e => [(key, e)]
  | (k, e') :: rest, key, e =>
    if k = key then (k, e) :: rest else (k, e') :: storeSet rest key e

/-- Property deletion on the backing object (`delete this.#cache[key]`). -/
def storeDelete {α : Type} (s : StoreState α) (key : String) : StoreState α :=
  s.filter fun p => p.1 ≠ key

namespace InMemoryStoreAdapter

/-- Model of `InMemoryStoreAdapter.put`: record value, TTL, creation
instant, and the absolute expiry instant `created + ttl` seconds
(`new Date(created).setSeconds(created.getSeconds() + ttl)`). -/
def put {α : Type} (s : StoreState α) (key : String) (value : Option α)
    (ttl : Nat) (created : Int) : StoreState α :=
  storeSet s key { value := value, ttl := ttl, created := created,
                   expires := created + 1000 * (ttl : Int) }

/-- Model of `#checkForFreshness`: absent keys report `undefined`; an
entry with non-zero TTL whose expiry instant lies strictly before `now`
is deleted and reported `undefined`; otherwise the stored value is
returned.  The pair carries the possibly-mutated backing object. -/
def checkForFreshness {α : Type} (s : StoreState α) (key : String) (now : Int) :
    Option α × StoreState α :=
  match storeLookup s key with
  | none => (none, s)
  | some e =>
    if e.ttl ≠ 0 ∧ e.expires < now then (none, storeDelete s key)
    else (e.value, s)

/-- Model of `InMemoryStoreAdapter.get`: `key in cache` guard, then the
passive freshness check. -/
def get {α : Type} (s : StoreState α) (key : String) (now : Int) :
    Option α × StoreState α :=
  if (storeLookup s key).isSome then checkForFreshness s key now else (none, s)

/-- Model of `InMemoryStoreAdapter.evict`. -/
def evict {α : Type} (s : StoreState α) (key : String) : StoreState α :=
  storeDelete s key

/-- Model of `InMemoryStoreAdapter.clear`. -/
def clear {α : Type} (_s : StoreState α) : StoreState α := []

/-- Model of `InMemoryStoreAdapter.size`
(`Object.keys(this.#cache).length`). -/
def size {α : Type} (s : StoreState α) : Nat := s.length

end InMemoryStoreAdapter

/-- Errors surfaced by the dispatcher, one constructor per distinct
`throw` site in `src/extensorCache.ts` plus `patternThrown` for a
`SyntaxError` escaping `checkForMatch` during route lookup. -/
inductive CacheError where
  | invalidPattern
  | keyNotFound
  | noConfiguration
  | patternThrown
  | callbackFailed (e : String)
  | readFallbackExhausted (e : String)
deriving DecidableEq, Repr

/-- Trace of one `#writeBack` dispatch: how many times the callback was
invoked, the timeouts scheduled between consecutive invocations, and
whether some invocation succeeded.  The promise returned by `#writeBack`
resolves in every case, so no error component is needed. -/
structure WriteBackTrace where
  attemptsMade : Nat
  delays : List Nat
  succeeded : Bool
deriving DecidableEq, Repr

/-- State of an `ExtensorCache` instance: the backing store, the ordered
pattern registry, and the global configuration. -/
structure CacheState (α : Type) where
  store : StoreState α
  registry : List (KeyConfig α)
  globalConfig : GlobalConfig

namespace ExtensorCache

/-- The timeout `rejectDelay` schedules after the failure of attempt
`attempt` (0-based): `interval * 2^attempt` under exponential backoff,
`interval` otherwise, capped by `Math.min` at `writeRetryIntervalCap`. -/
def writeBackDelay {α : Type} (cfg : KeyConfig α) (attempt : Nat) : Nat :=
  min cfg.writeRetryIntervalCap
    (cfg.writeRetryInterval * (if cfg.writeRetryBackoff then 2 ^ attempt else 1))

/-- Worker for `writeBack`: run attempts starting at index `i` with
`remaining` tries left.  An attempt that succeeds ends the chain; a
failure with further tries left schedules `writeBackDelay` and
continues; the failure of the last try gives up (`rejectQuit`), still
resolving the promise. -/
def writeBackFrom {α : Type} (cfg : KeyConfig α) (cb : Nat → Bool) :
    Nat → Nat → WriteBackTrace
  | _, 0 => ⟨0, [], false⟩
  | i, remaining + 1 =>
    if cb i then ⟨1, [], true⟩
    else if remaining = 0 then ⟨1, [], false⟩
    else
      ⟨(writeBackFrom cfg cb (i + 1) remaining).attemptsMade + 1,
        writeBackDelay cfg i :: (writeBackFrom cfg cb (i + 1) remaining).delays,
        (writeBackFrom cfg cb (i + 1) remaining).succeeded⟩

/-- Model of `#writeBack`: `tryCount = writeRetryCount + 1` tries of the
callback (`cb i` tells whether invocation `i` succeeds), with the
capped, optionally exponential delays of `rejectDelay` between
consecutive tries. -/
def writeBack {α : Type} (cfg : KeyConfig α) (cb : Nat → Bool) : WriteBackTrace :=
  writeBackFrom cfg cb 0 (cfg.writeRetryCount + 1)

/-- Model of `#findRoute`: first registered configuration whose pattern
matches the key, together with the match context; `Except.error` when
`checkForMatch` throws while scanning. -/
def findRoute {α : Type} (registry : List (KeyConfig α)) (key : String) :
    Except Unit (Option (KeyConfig α × MatchedRouteContext)) :=
  match registry with
  | [] => Except.ok none
  | cfg :: rest =>
    match checkForMatch cfg.pattern key with
    | MatchOutcome.thrown => Except.error ()
    | MatchOutcome.matched r => Except.ok (some (cfg, ⟨key, r.params⟩))
    | MatchOutcome.noMatch => findRoute rest key

/-- Model of `ExtensorCache.put`.  Write-through invokes the write
callback and stores only (`.then`) after it succeeds — a callback
failure rejects the returned promise with no store mutation.  Every
other strategy stores directly (an unmatched key stores with the
adapter's default TTL 0); write-back additionally runs the retry chain,
whose trace is returned alongside the new state. -/
def put {α : Type} (st : CacheState α) (key : String) (value : Option α) (now : Int) :
    Except CacheError (CacheState α × Option WriteBackTrace) :=
  match findRoute st.registry key with
  | Except.error _ => Except.error CacheError.patternThrown
  | Except.ok none =>
    Except.ok ({ st with store := InMemoryStoreAdapter.put st.store key value 0 now }, none)
  | Except.ok (some (cfg, ctx)) =>
    if cfg.writeStrategy = WriteStrategies.writeThrough then
      match cfg.writeCallback ctx 0 with
      | Except.error e => Except.error (CacheError.callbackFailed e)
      | Except.ok _ =>
        Except.ok ({ st with store := InMemoryStoreAdapter.put st.store key value cfg.ttl now }, none)
    else
      let st' := { st with store := InMemoryStoreAdapter.put st.store key value cfg.ttl now }
      if cfg.writeStrategy = WriteStrategies.writeBack then
        Except.ok (st', some (writeBack cfg (fun i => (cfg.writeCallback ctx i).isOk)))
      else
        Except.ok (st', none)

/-- Model of `ExtensorCache.get` with its three read strategies. -/
def get {α : Type} (st : CacheState α) (key : String) (now : Int) :
    Except CacheError (Option α × CacheState α) :=
  match findRoute st.registry key with
  | Except.error _ => Except.error CacheError.patternThrown
  | Except.ok (some (cfg, ctx)) =>
    match cfg.readStrategy with
    | ReadStrategies.readThrough =>
      let r := InMemoryStoreAdapter.get st.store key now
      match r.1 with
      | some v => Except.ok (some v, { st with store := r.2 })
      | none =>
        match cfg.readCallback ctx 0 with
        | Except.error e => Except.error (CacheError.callbackFailed e)
        | Except.ok fresh =>
          Except.ok (fresh, { st with store := InMemoryStoreAdapter.put r.2 key fresh cfg.ttl now })
    | ReadStrategies.readAround =>
      match cfg.readCallback ctx 0 with
      | Except.ok fresh =>
        Except.ok (fresh, { st with store := InMemoryStoreAdapter.put st.store key fresh cfg.ttl now })
      | Except.error e =>
        let r := InMemoryStoreAdapter.get st.store key now
        match r.1 with
        | none => Except.error (CacheError.readFallbackExhausted e)
        | some v => Except.ok (some v, { st with store := r.2 })
    | ReadStrategies.cacheOnly =>
      let r := InMemoryStoreAdapter.get st.store key now
      match r.1 with
      | none => Except.error CacheError.keyNotFound
      | some v => Except.ok (some v, { st with store := r.2 })
  | Except.ok none =>
    let r := InMemoryStoreAdapter.get st.store key now
    match r.1 with
    | none => Except.error CacheError.keyNotFound
    | some v => Except.ok (some v, { st with store := r.2 })

/-- Model of `ExtensorCache.update`: like `put`, but the effective
callback is `updateCallback || writeCallback`, and an unmatched key
fails with `NoConfigurationError` before touching the store. -/
def update {α : Type} (st : CacheState α) (key : String) (value : Option α) (now : Int) :
    Except CacheError (CacheState α × Option WriteBackTrace) :=
  match findRoute st.registry key with
  | Except.error _ => Except.error CacheError.patternThrown
  | Except.ok none => Except.error CacheError.noConfiguration
  | Except.ok (some (cfg, ctx)) =>
    let callback := cfg.updateCallback.getD cfg.writeCallback
    if cfg.writeStrategy = WriteStrategies.writeThrough then
      match callback ctx 0 with
      | Except.error e => Except.error (CacheError.callbackFailed e)
      | Except.ok _ =>
        Except.ok ({ st with store := InMemoryStoreAdapter.put st.store key value cfg.ttl now }, none)
    else
      let st' := { st with store := InMemoryStoreAdapter.put st.store key value cfg.ttl now }
      if cfg.writeStrategy = WriteStrategies.writeBack then
        Except.ok (st', some (writeBack cfg (fun i => (callback ctx i).isOk)))
      else
        Except.ok (st', none)

/-- Model of `ExtensorCache.evict`: write-through removes from the store
only after the evict callback succeeds; every other strategy removes
immediately, write-back then running the retry chain. -/
def evict {α : Type} (st : CacheState α) (key : String) (_now : Int) :
    Except CacheError (CacheState α × Option WriteBackTrace) :=
  match findRoute st.registry key with
  | Except.error _ => Except.error CacheError.patternThrown
  | Except.ok none =>
    Except.ok ({ st with store := InMemoryStoreAdapter.evict st.store key }, none)
  | Except.ok (some (cfg, ctx)) =>
    if cfg.writeStrategy = WriteStrategies.writeThrough then
      match cfg.evictCallback ctx 0 with
      | Except.error e => Except.error (CacheError.callbackFailed e)
      | Except.ok _ =>
        Except.ok ({ st with store := InMemoryStoreAdapter.evict st.store key }, none)
    else
      let st' := { st with store := InMemoryStoreAdapter.evict st.store key }
      if cfg.writeStrategy = WriteStrategies.writeBack then
        Except.ok (st', some (writeBack cfg (fun i => (cfg.evictCallback ctx i).isOk)))
      else
        Except.ok (st', none)

/-- Model of `ExtensorCache.register`: validate the pattern, then append
`{ ...globalConfig, ...config }` to the registry. -/
def register {α : Type} (st : CacheState α) (config : KeyConfig α) :
    Except CacheError (CacheState α) :=
  if keyPatternIsValid config.pattern then
    Except.ok { st with registry := st.registry ++ [spreadMerge st.globalConfig config] }
  else Except.error CacheError.invalidPattern

/-- Model of `ExtensorCache.containsKey`
(`this.#store.get(key) !== undefined`). -/
def containsKey {α : Type} (st : CacheState α) (key : String) (now : Int) : Bool :=
  (InMemoryStoreAdapter.get st.store key now).1.isSome

/-- Model of `ExtensorCache.size`. -/
def size {α : Type} (st : CacheState α) : Nat :=
  InMemoryStoreAdapter.size st.store

end ExtensorCache

/-! Concrete fixtures used by the witness theorems: a callback that
always fails, a matched context for the pattern `user:{id}` and key
`user:42`, and cache states with a single registered route per write
strategy. -/

/-- A callback that rejects on every invocation. -/
def failingCb : Callback String := fun _ _ => Except.error "origin down"

/-- The route context `checkForMatch "user:{id}" "user:42"` produces. -/
def demoCtx : MatchedRouteContext := ⟨"user:42", [(['i', 'd'], ['4', '2'])]⟩

/-- A default-constructed key configuration for the pattern `user:{id}`. -/
def baseCfg : KeyConfig String :=
  KeyConfig.make String "user:{id}" none none none none none

/-- A write-through route whose write and evict callbacks always fail. -/
def wtCfg : KeyConfig String :=
  { baseCfg with
    writeStrategy := WriteStrategies.writeThrough
    writeCallback := failingCb
    evictCallback := failingCb }

/-- Cache state with only the write-through route registered. -/
def wtState : CacheState String := ⟨[], [wtCfg], GlobalConfig.make none none none⟩

/-- A write-back route with `writeRetryCount = 2` whose write callback
always fails. -/
def wbCfg : KeyConfig String :=
  { baseCfg with
    writeStrategy := WriteStrategies.writeBack
    writeCallback := failingCb
    evictCallback := failingCb
    writeRetryCount := 2 }

/-- Cache state with only the write-back route registered. -/
def wbState : CacheState String := ⟨[], [wbCfg], GlobalConfig.make none none none⟩

/-- The backoff fixture of the specification: initial interval 1000 ms,
cap 5000 ms, exponential backoff, five retries. -/
def backoffCfg : KeyConfig String :=
  { baseCfg with
    writeRetryInterval := 1000
    writeRetryIntervalCap := 5000
    writeRetryBackoff := true
    writeRetryCount := 5 }

/-- A global configuration whose `ttl` was assigned 300 after
construction, as in the repository's `globalConfig.test.js`. -/
def gTtl300 : GlobalConfig := { GlobalConfig.make none none none with ttl := 300 }

/-- Fresh cache on the global default `ttl = 300`. -/
def c1State : CacheState String := ⟨[], [], gTtl300⟩

/-- `new KeyConfig("test/{id}")` — the caller does not set a TTL. -/
def kcNoTtl : KeyConfig String := KeyConfig.make String "test/{id}" none none none none none

/-- `new KeyConfig("test/{id}", 600)` — explicit per-pattern TTL. -/
def kcTtl600 : KeyConfig String :=
  KeyConfig.make String "test/{id}" (some 600) none none none none

/-- A read-through route whose read callback returns `"fresh"`. -/
def rtCfg : KeyConfig String :=
  { baseCfg with
    readStrategy := ReadStrategies.readThrough
    readCallback := fun _ _ => Except.ok (some "fresh") }

/-- Cache state for the undefined-marker witness: the store holds an
entry for `user:42` whose stored value is `undefined`, and the
read-through route is registered. -/
def rtState : CacheState String :=
  ⟨[("user:42", ⟨none, 0, 0, 0⟩)], [rtCfg], GlobalConfig.make none none none⟩

/-- A store entry created at instant 0 with TTL 60 s, hence expiring at
instant 60000. -/
def staleEntry : CacheEntry String := ⟨some "v", 60, 0, 60000⟩

/-- A store holding only the stale entry. -/
def staleStore : StoreState String := [("user:42", staleEntry)]

/-- A cache with nothing registered and an empty store. -/
def emptyState : CacheState String := ⟨[], [], GlobalConfig.make none none none⟩

/-! Helper lemmas about the pattern matcher. -/

@[simp] theorem segNames_nil : segNames [] = [] := rfl

@[simp] theorem segNames_lit (c : Char) (rest : List Seg) :
    segNames (Seg.lit c :: rest) = segNames rest := rfl

@[simp] theorem segNames_param (n : List Char) (rest : List Seg) :
    segNames (Seg.param n :: rest) = n :: segNames rest := rfl

theorem exists_of_findSome_eq_some {α β : Type} {f : α → Option β} :
    ∀ {l : List α} {b : β}, l.findSome? f = some b → ∃ a ∈ l, f a = some b := by
  intro l
  induction l with
  | nil => intro b h; simp [List.findSome?] at h
  | cons a as ih =>
    intro b h
    rw [List.findSome?] at h
    split at h
    · rename_i b' heq
      exact ⟨a, by simp, by rw [heq, h]⟩
    · rename_i heq
      obtain ⟨x, hx, hfx⟩ := ih h
      exact ⟨x, by simp [hx], hfx⟩

theorem matchSegs_names :
    ∀ (segs : List Seg) (k : List Char) (ps : List (List Char × List Char)),
      matchSegs segs k = some ps → ps.map Prod.fst = segNames segs := by
  intro segs
  induction segs with
  | nil =>
    intro k ps h
    rw [matchSegs] at h
    by_cases hk : k = []
    · rw [if_pos hk] at h
      injection h with h1
      subst h1
      simp
    · rw [if_neg hk] at h
      simp at h
  | cons s rest ih =>
    cases s with
    | lit c =>
      intro k ps h
      cases k with
      | nil => simp [matchSegs] at h
      | cons x xs =>
        by_cases hx : x = c
        · rw [matchSegs, if_pos hx] at h
          simpa using ih xs ps h
        · rw [matchSegs, if_neg hx] at h
          cases h
    | param n =>
      intro k ps h
      rw [matchSegs] at h
      obtain ⟨len, _, hlen⟩ := exists_of_findSome_eq_some h
      by_cases hall : ((k.take len).all fun c => !(isLineTerm c)) = true
      · rw [if_pos hall] at hlen
        cases hms : matchSegs rest (k.drop len) with
        | none => rw [hms] at hlen; cases hlen
        | some ps' =>
          rw [hms] at hlen
          obtain rfl : (n, k.take len) :: ps' = ps := by simpa using hlen
          simpa using ih _ _ hms
      · rw [if_neg hall] at hlen
        cases hlen

theorem matchSegs_subst :
    ∀ (segs : List Seg) (k : List Char) (ps : List (List Char × List Char)),
      matchSegs segs k = some ps → substSegs segs ps = k := by
  intro segs
  induction segs with
  | nil =>
    intro k ps h
    rw [matchSegs] at h
    by_cases hk : k = []
    · rw [if_pos hk] at h
      injection h with h1
      subst h1
      simp [substSegs, hk]
    · rw [if_neg hk] at h
      simp at h
  | cons s rest ih =>
    cases s with
    | lit c =>
      intro k ps h
      cases k with
      | nil => simp [matchSegs] at h
      | cons x xs =>
        by_cases hx : x = c
        · rw [matchSegs, if_pos hx] at h
          rw [substSegs, ih xs ps h, hx]
        · rw [matchSegs, if_neg hx] at h
          cases h
    | param n =>
      intro k ps h
      rw [matchSegs] at h
      obtain ⟨len, _, hlen⟩ := exists_of_findSome_eq_some h
      by_cases hall : ((k.take len).all fun c => !(isLineTerm c)) = true
      · rw [if_pos hall] at hlen
        cases hms : matchSegs rest (k.drop len) with
        | none => rw [hms] at hlen; cases hlen
        | some ps' =>
          rw [hms] at hlen
          obtain rfl : (n, k.take len) :: ps' = ps := by simpa using hlen
          rw [substSegs, ih _ _ hms]
          exact List.take_append_drop len k
      · rw [if_neg hall] at hlen
        cases hlen

theorem matchSegs_substring :
    ∀ (segs : List Seg) (k : List Char) (ps : List (List Char × List Char)),
      matchSegs segs k = some ps → ∀ p ∈ ps, isSubstringOf p.2 k := by
  intro segs
  induction segs with
  | nil =>
    intro k ps h
    rw [matchSegs] at h
    by_cases hk : k = []
    · rw [if_pos hk] at h
      injection h with h1
      subst h1
      simp
    · rw [if_neg hk] at h
      simp at h
  | cons s rest ih =>
    cases s with
    | lit c =>
      intro k ps h
      cases k with
      | nil => simp [matchSegs] at h
      | cons x xs =>
        by_cases hx : x = c
        · rw [matchSegs, if_pos hx] at h
          intro p hp
          obtain ⟨s', t', hst⟩ := ih xs ps h p hp
          exact ⟨x :: s', t', by simp [hst]⟩
        · rw [matchSegs, if_neg hx] at h
          cases h
    | param n =>
      intro k ps h
      rw [matchSegs] at h
      obtain ⟨len, _, hlen⟩ := exists_of_findSome_eq_some h
      by_cases hall : ((k.take len).all fun c => !(isLineTerm c)) = true
      · rw [if_pos hall] at hlen
        cases hms : matchSegs rest (k.drop len) with
        | none => rw [hms] at hlen; cases hlen
        | some ps' =>
          rw [hms] at hlen
          obtain rfl : (n, k.take len) :: ps' = ps := by simpa using hlen
          intro p hp
          rcases List.mem_cons.1 hp with hp0 | hp1
          · subst hp0
            exact ⟨[], k.drop len, by simp [List.take_append_drop]⟩
          · obtain ⟨s', t', hst⟩ := ih _ _ hms p hp1
            refine ⟨k.take len ++ s', t', ?_⟩
            conv_lhs => rw [← List.take_append_drop len k]
            rw [hst]
            simp [List.append_assoc]
      · rw [if_neg hall] at hlen
        cases hlen

theorem dedup_length_eq_iff_nodup {α : Type} [DecidableEq α] (l : List α) :
    l.dedup.length = l.length ↔ l.Nodup := by
  constructor
  · intro h
    have hs : List.Sublist l.dedup l := List.dedup_sublist l
    have heq : l.dedup = l := hs.eq_of_length h
    rw [← heq]
    exact l.nodup_dedup
  · intro h
    rw [List.dedup_eq_self.2 h]

/-- C6: `keyPatternIsValid(p)` returns false if and only if `p` contains
a duplicate placeholder name, an empty placeholder name, or a
placeholder name containing a brace character; a pattern with zero
placeholders is always valid (its invalidity condition is unsatisfiable,
so the equivalence forces the result `true`). -/
theorem keyPatternIsValid_iff (p : String) :
    keyPatternIsValid p = false ↔ specPatternInvalid p := by
  have hval : keyPatternIsValid p =
      (if placeholderNames p = [] then true
       else if ¬ (placeholderNames p).dedup.length = (placeholderNames p).length then false
       else if (placeholderNames p).any (fun n => n.isEmpty) then false
       else if (placeholderNames p).any (fun n => n.contains '{' || n.contains '}') then false
       else true) := rfl
  rw [hval]
  by_cases h0 : placeholderNames p = []
  · rw [if_pos h0]
    simp [specPatternInvalid, h0]
  · rw [if_neg h0]
    by_cases h1 : (placeholderNames p).dedup.length = (placeholderNames p).length
    · rw [if_neg (fun hc => hc h1)]
      have hnd : (placeholderNames p).Nodup := (dedup_length_eq_iff_nodup _).1 h1
      by_cases h2 : (placeholderNames p).any (fun n => n.isEmpty) = true
      · rw [if_pos h2]
        refine iff_of_true rfl (Or.inr (Or.inl ?_))
        obtain ⟨n, hn, hne⟩ := List.any_eq_true.1 h2
        cases n with
        | nil => exact hn
        | cons a as => simp at hne
      · rw [if_neg h2]
        by_cases h3 : (placeholderNames p).any
            (fun n => n.contains '{' || n.contains '}') = true
        · rw [if_pos h3]
          refine iff_of_true rfl (Or.inr (Or.inr ?_))
          obtain ⟨n, hn, hc⟩ := List.any_eq_true.1 h3
          have hc' : '{' ∈ n ∨ '}' ∈ n := by simpa using hc
          exact ⟨n, hn, hc'⟩
        · rw [if_neg h3]
          refine iff_of_false (by simp) ?_
          rintro (hdup | hempty | ⟨n, hn, hbr⟩)
          · exact hdup hnd
          · exact h2 (List.any_eq_true.2 ⟨[], hempty, rfl⟩)
          · refine h3 (List.any_eq_true.2 ⟨n, hn, ?_⟩)
            simpa using hbr
    · rw [if_pos (fun hc => absurd hc h1)]
      refine iff_of_true rfl (Or.inl ?_)
      exact fun hnd => h1 ((dedup_length_eq_iff_nodup _).2 hnd)

/-- C2 (counterexample): the pattern `{1}` passes `keyPatternIsValid`,
yet `checkForMatch("{1}", "x")` does not return a result — interpolating
the placeholder into `(?<1>.*?)` makes `new RegExp` throw a
`SyntaxError` because a capture-group name may not start with a digit. -/
theorem checkForMatch_throws_on_validated_pattern :
    keyPatternIsValid "{1}" = true ∧ checkForMatch "{1}" "x" = MatchOutcome.thrown := by
  decide

/-- C2 (amended): `checkForMatch(pattern, key)` terminates with a
non-match or a match result — never a thrown error — for every key,
provided every placeholder name of the pattern is a valid capture-group
identifier and the names are mutually distinct (and, for faithfulness of
the embedding, the literal text is free of regex metacharacters); a
match result carries exactly one extracted value per placeholder, keyed
by placeholder name in order. -/
theorem checkForMatch_total_on_valid_group_names (pattern key : String)
    (hvalid : ∀ n ∈ placeholderNames pattern, groupNameValid n = true)
    (hnodup : (placeholderNames pattern).Nodup)
    (_hlit : litSafe (parsePattern pattern.data) = true) :
    checkForMatch pattern key ≠ MatchOutcome.thrown ∧
      ∀ r, checkForMatch pattern key = MatchOutcome.matched r →
        r.params.map Prod.fst = placeholderNames pattern ∧ r.key = key.data := by
  have hcm : checkForMatch pattern key =
      (match matchSegs (parsePattern pattern.data) key.data with
       | none => MatchOutcome.noMatch
       | some ps => MatchOutcome.matched ⟨ps, key.data⟩) := by
    unfold checkForMatch
    exact if_pos ⟨hvalid, hnodup⟩
  rw [hcm]
  cases hms : matchSegs (parsePattern pattern.data) key.data with
  | none => exact ⟨by simp, by simp⟩
  | some ps =>
    refine ⟨by simp, ?_⟩
    intro r hr
    obtain rfl : MatchResult.mk ps key.data = r := by simpa using hr
    exact ⟨matchSegs_names _ _ _ hms, rfl⟩

/-- C2 (witness): the amended totality theorem applied to the pattern
`user:{id}` and key `user:42`. -/
theorem checkForMatch_total_on_valid_group_names_witness :
    checkForMatch "user:{id}" "user:42" ≠ MatchOutcome.thrown ∧
      ∀ r, checkForMatch "user:{id}" "user:42" = MatchOutcome.matched r →
        r.params.map Prod.fst = placeholderNames "user:{id}" ∧ r.key = "user:42".data :=
  checkForMatch_total_on_valid_group_names "user:{id}" "user:42"
    (by decide) (by decide) (by decide)

/-- C7: when a pattern matches a key, every extracted value is a
(possibly empty) contiguous substring of the key, and substituting the
extracted values back into the pattern's literal skeleton (in placeholder
order — the order the values are keyed in) reproduces the key exactly.
The hypotheses keep the statement on the embedding's faithful domain:
the literal text is regex-safe and the pattern has at least one
placeholder. -/
theorem checkForMatch_extraction_sound (pattern key : String) (r : MatchResult)
    (_hlit : litSafe (parsePattern pattern.data) = true)
    (_hph : segNames (parsePattern pattern.data) ≠ [])
    (hm : checkForMatch pattern key = MatchOutcome.matched r) :
    (∀ p ∈ r.params, isSubstringOf p.2 key.data) ∧
      substSegs (parsePattern pattern.data) r.params = key.data := by
  unfold checkForMatch at hm
  by_cases hc : (∀ n ∈ segNames (parsePattern pattern.data), groupNameValid n = true) ∧
      (segNames (parsePattern pattern.data)).Nodup
  · rw [if_pos hc] at hm
    cases hms : matchSegs (parsePattern pattern.data) key.data with
    | none => rw [hms] at hm; simp at hm
    | some ps =>
      rw [hms] at hm
      obtain rfl : MatchResult.mk ps key.data = r := by simpa using hm
      exact ⟨matchSegs_substring _ _ _ hms, matchSegs_subst _ _ _ hms⟩
  · rw [if_neg hc] at hm
    simp at hm

/-- C7 (witness): the extraction-soundness theorem applied to the
pattern `user:{id}` and key `user:42`, whose single extracted value is
`42`. -/
theorem checkForMatch_extraction_sound_witness :
    (∀ p ∈ ([(['i', 'd'], ['4', '2'])] : List (List Char × List Char)),
        isSubstringOf p.2 "user:42".data) ∧
      substSegs (parsePattern "user:{id}".data) [(['i', 'd'], ['4', '2'])] =
        "user:42".data :=
  checkForMatch_extraction_sound "user:{id}" "user:42"
    ⟨[(['i', 'd'], ['4', '2'])], "user:42".data⟩ (by decide) (by decide) (by decide)

/-! Helper lemmas about the write-back retry chain. -/

theorem writeBackFrom_allFail {α : Type} (cfg : KeyConfig α) (cb : Nat → Bool)
    (hcb : ∀ j, cb j = false) :
    ∀ (r i : Nat),
      (ExtensorCache.writeBackFrom cfg cb i (r + 1)).attemptsMade = r + 1 ∧
      (ExtensorCache.writeBackFrom cfg cb i (r + 1)).succeeded = false := by
  intro r
  induction r with
  | zero => intro i; simp [ExtensorCache.writeBackFrom, hcb i]
  | succ r' ih =>
    intro i
    have h := ih (i + 1)
    rw [ExtensorCache.writeBackFrom, if_neg (by simp [hcb i]), if_neg (Nat.succ_ne_zero r')]
    exact ⟨by rw [h.1], h.2⟩

theorem writeBackFrom_delay_index {α : Type} (cfg : KeyConfig α) (cb : Nat → Bool) :
    ∀ (r i n d : Nat),
      ((ExtensorCache.writeBackFrom cfg cb i r).delays)[n]? = some d →
      d = ExtensorCache.writeBackDelay cfg (i + n) := by
  intro r
  induction r with
  | zero => intro i n d h; simp [ExtensorCache.writeBackFrom] at h
  | succ r' ih =>
    intro i n d h
    by_cases hcb : cb i = true
    · simp [ExtensorCache.writeBackFrom, hcb] at h
    · by_cases hr : r' = 0
      · simp [ExtensorCache.writeBackFrom, hcb, hr] at h
      · rw [ExtensorCache.writeBackFrom, if_neg hcb, if_neg hr] at h
        cases n with
        | zero =>
          rw [List.getElem?_cons_zero] at h
          injection h with h1
          rw [← h1]
          simp
        | succ m =>
          rw [List.getElem?_cons_succ] at h
          have hd := ih (i + 1) m d h
          have harg : i + 1 + m = i + (m + 1) := by omega
          rw [harg] at hd
          exact hd

/-- C4: every delay scheduled in a write-back retry chain before retry
`n` (zero-indexed from the first retry) equals
`min(writeRetryIntervalCap, writeRetryInterval * 2^n)` under exponential
backoff and `min(writeRetryIntervalCap, writeRetryInterval)` without
it. -/
theorem writeBack_retry_delay_schedule {α : Type} (cfg : KeyConfig α) (cb : Nat → Bool)
    (n d : Nat)
    (h : (ExtensorCache.writeBack cfg cb).delays[n]? = some d) :
    (cfg.writeRetryBackoff = true →
      d = min cfg.writeRetryIntervalCap (cfg.writeRetryInterval * 2 ^ n)) ∧
    (cfg.writeRetryBackoff = false →
      d = min cfg.writeRetryIntervalCap cfg.writeRetryInterval) := by
  have hd := writeBackFrom_delay_index cfg cb (cfg.writeRetryCount + 1) 0 n d h
  rw [Nat.zero_add] at hd
  constructor <;> intro hb <;> rw [hd] <;>
    simp [ExtensorCache.writeBackDelay, hb]

/-- C4 (witness): with interval 1000 ms, cap 5000 ms and backoff
enabled, an always-failing chain schedules the delays 1000, 2000, 4000,
then 5000 for every further retry; the schedule theorem instantiated at
retry 3 yields the capped value. -/
theorem writeBack_retry_delay_schedule_witness :
    (ExtensorCache.writeBack backoffCfg (fun _ => false)).delays =
      [1000, 2000, 4000, 5000, 5000] ∧
    ((backoffCfg.writeRetryBackoff = true →
        (5000 : Nat) = min backoffCfg.writeRetryIntervalCap
          (backoffCfg.writeRetryInterval * 2 ^ 3)) ∧
      (backoffCfg.writeRetryBackoff = false →
        (5000 : Nat) = min backoffCfg.writeRetryIntervalCap
          backoffCfg.writeRetryInterval)) :=
  ⟨rfl, writeBack_retry_delay_schedule backoffCfg (fun _ => false) 3 5000 rfl⟩

/-- C5: for a write-back route whose callback fails on every invocation,
`put`, `update` and `evict` each drive the retry chain through exactly
`writeRetryCount + 1` callback invocations (the initial try plus the
retries), no invocation succeeds, and the promise returned to the
original caller still resolves (`Except.ok`). -/
theorem writeBack_attempt_count {α : Type} (st : CacheState α) (key : String)
    (value : Option α) (now : Int) (cfg : KeyConfig α) (ctx : MatchedRouteContext)
    (hr : ExtensorCache.findRoute st.registry key = Except.ok (some (cfg, ctx)))
    (hws : cfg.writeStrategy = WriteStrategies.writeBack) :
    ((∀ i, (cfg.writeCallback ctx i).isOk = false) →
      (ExtensorCache.put st key value now).toOption.map
          (fun r => r.2.map fun tr => (tr.attemptsMade, tr.succeeded)) =
        some (some (cfg.writeRetryCount + 1, false))) ∧
    ((∀ i, ((cfg.updateCallback.getD cfg.writeCallback) ctx i).isOk = false) →
      (ExtensorCache.update st key value now).toOption.map
          (fun r => r.2.map fun tr => (tr.attemptsMade, tr.succeeded)) =
        some (some (cfg.writeRetryCount + 1, false))) ∧
    ((∀ i, (cfg.evictCallback ctx i).isOk = false) →
      (ExtensorCache.evict st key now).toOption.map
          (fun r => r.2.map fun tr => (tr.attemptsMade, tr.succeeded)) =
        some (some (cfg.writeRetryCount + 1, false))) := by
  refine ⟨?_, ?_, ?_⟩ <;> intro hfail
  · have hall := writeBackFrom_allFail cfg _ hfail cfg.writeRetryCount 0
    unfold ExtensorCache.put
    rw [hr]
    simp [hws, ExtensorCache.writeBack, hall.1, hall.2, Except.toOption]
  · have hall := writeBackFrom_allFail cfg _ hfail cfg.writeRetryCount 0
    unfold ExtensorCache.update
    rw [hr]
    simp [hws, ExtensorCache.writeBack, hall.1, hall.2, Except.toOption]
  · have hall := writeBackFrom_allFail cfg _ hfail cfg.writeRetryCount 0
    unfold ExtensorCache.evict
    rw [hr]
    simp [hws, ExtensorCache.writeBack, hall.1, hall.2, Except.toOption]

/-- C5 (witness): the write-back route `wbCfg` has `writeRetryCount = 2`
and an always-failing callback; `put` resolves and its trace shows
exactly 3 invocations, none successful. -/
theorem writeBack_attempt_count_witness :
    (ExtensorCache.put wbState "user:42" (some "v") 0).toOption.map
        (fun r => r.2.map fun tr => (tr.attemptsMade, tr.succeeded)) =
      some (some (3, false)) :=
  (writeBack_attempt_count wbState "user:42" (some "v") 0 wbCfg demoCtx
      rfl rfl).1 (fun _ => rfl)

/-! Helper lemmas about the store's backing object. -/

theorem storeLookup_storeSet_self {α : Type} :
    ∀ (s : StoreState α) (key : String) (e : CacheEntry α),
      storeLookup (storeSet s key e) key = some e := by
  intro s
  induction s with
  | nil => intro key e; simp [storeSet, storeLookup]
  | cons p rest ih =>
    intro key e
    obtain ⟨k, e'⟩ := p
    by_cases hk : k = key
    · simp [storeSet, storeLookup, hk]
    · simp [storeSet, storeLookup, hk, ih]

theorem storeLookup_storeDelete_self {α : Type} :
    ∀ (s : StoreState α) (key : String),
      storeLookup (storeDelete s key) key = none := by
  intro s
  induction s with
  | nil => intro key; simp [storeDelete, storeLookup]
  | cons p rest ih =>
    intro key
    obtain ⟨k, e'⟩ := p
    by_cases hk : k = key
    · simpa [storeDelete, List.filter_cons, hk] using ih key
    · simpa [storeDelete, List.filter_cons, hk, storeLookup] using ih key

/-- C3: on a write-through route, a failing callback aborts the
operation — `put`, `update` and `evict` reject with the callback's
failure and return no mutated state, the store untouched — while a
succeeding callback lets the store mutation proceed (`put` stores with
the route's TTL, `evict` removes the key), the mutation happening only
after the callback's success. -/
theorem writeThrough_failure_aborts {α : Type} (st : CacheState α) (key : String)
    (value : Option α) (now : Int) (cfg : KeyConfig α) (ctx : MatchedRouteContext)
    (e : String) (v : Option α)
    (hr : ExtensorCache.findRoute st.registry key = Except.ok (some (cfg, ctx)))
    (hws : cfg.writeStrategy = WriteStrategies.writeThrough) :
    (cfg.writeCallback ctx 0 = Except.error e →
      ExtensorCache.put st key value now = Except.error (CacheError.callbackFailed e)) ∧
    (cfg.writeCallback ctx 0 = Except.ok v →
      ExtensorCache.put st key value now =
        Except.ok
          ({ st with store := InMemoryStoreAdapter.put st.store key value cfg.ttl now },
            none)) ∧
    (cfg.evictCallback ctx 0 = Except.error e →
      ExtensorCache.evict st key now = Except.error (CacheError.callbackFailed e)) ∧
    (cfg.evictCallback ctx 0 = Except.ok v →
      ExtensorCache.evict st key now =
        Except.ok ({ st with store := InMemoryStoreAdapter.evict st.store key }, none)) ∧
    ((cfg.updateCallback.getD cfg.writeCallback) ctx 0 = Except.error e →
      ExtensorCache.update st key value now = Except.error (CacheError.callbackFailed e)) := by
  refine ⟨?_, ?_, ?_, ?_, ?_⟩ <;> intro hcb
  · unfold ExtensorCache.put
    rw [hr]
    simp [hws, hcb]
  · unfold ExtensorCache.put
    rw [hr]
    simp [hws, hcb]
  · unfold ExtensorCache.evict
    rw [hr]
    simp [hws, hcb]
  · unfold ExtensorCache.evict
    rw [hr]
    simp [hws, hcb]
  · unfold ExtensorCache.update
    rw [hr]
    simp [hws, hcb]

/-- C3 (witness): the write-through route `wtCfg` with an always-failing
callback — `put` rejects with the callback's failure. -/
theorem writeThrough_failure_aborts_witness :
    ExtensorCache.put wtState "user:42" (some "v") 0 =
      Except.error (CacheError.callbackFailed "origin down") :=
  (writeThrough_failure_aborts wtState "user:42" (some "v") 0 wtCfg demoCtx
      "origin down" none rfl rfl).1 rfl

/-- C8: for a key matching no registered route, `update` fails with
`NoConfigurationError` (no state change), whereas `put` succeeds and
stores the value directly with the adapter's default TTL 0 (cache-only
fallback semantics). -/
theorem unmatched_update_fails_put_falls_back {α : Type} (st : CacheState α)
    (key : String) (value : Option α) (now : Int)
    (hr : ExtensorCache.findRoute st.registry key = Except.ok none) :
    ExtensorCache.update st key value now = Except.error CacheError.noConfiguration ∧
    ExtensorCache.put st key value now =
      Except.ok ({ st with store := InMemoryStoreAdapter.put st.store key value 0 now },
        none) := by
  constructor
  · unfold ExtensorCache.update
    rw [hr]
  · unfold ExtensorCache.put
    rw [hr]

/-- C8 (witness): on a cache with no registered routes at all, `update`
fails with `NoConfigurationError` and `put` stores directly. -/
theorem unmatched_update_fails_put_falls_back_witness :
    ExtensorCache.update emptyState "anything" (some "v") 0 =
        Except.error CacheError.noConfiguration ∧
      ExtensorCache.put emptyState "anything" (some "v") 0 =
        Except.ok
          ({ emptyState with
              store := InMemoryStoreAdapter.put emptyState.store "anything" (some "v") 0 0 },
            none) :=
  unmatched_update_fails_put_falls_back emptyState "anything" (some "v") 0 rfl

/-- C9: an entry with TTL 0 never expires — `get` returns its value at
every instant, whatever its expiry timestamp; an entry with non-zero TTL
whose expiry timestamp has passed is deleted by the next `get` and
reported absent; and `put` creates the entry with expiry timestamp
`created + 1000·ttl` (creation time plus TTL seconds). -/
theorem ttl_expiry_semantics {α : Type} (s : StoreState α) (key : String)
    (e : CacheEntry α) (now : Int) (v : Option α) (ttl : Nat) (t : Int)
    (hlook : storeLookup s key = some e) :
    (e.ttl = 0 → (InMemoryStoreAdapter.get s key now).1 = e.value) ∧
    (e.ttl ≠ 0 → e.expires < now →
      (InMemoryStoreAdapter.get s key now).1 = none ∧
      storeLookup (InMemoryStoreAdapter.get s key now).2 key = none) ∧
    storeLookup (InMemoryStoreAdapter.put s key v ttl t) key =
      some ⟨v, ttl, t, t + 1000 * (ttl : Int)⟩ := by
  refine ⟨?_, ?_, ?_⟩
  · intro h0
    simp [InMemoryStoreAdapter.get, InMemoryStoreAdapter.checkForFreshness, hlook, h0]
  · intro h1 h2
    have hg : InMemoryStoreAdapter.get s key now = (none, storeDelete s key) := by
      simp [InMemoryStoreAdapter.get, InMemoryStoreAdapter.checkForFreshness, hlook, h1, h2]
    rw [hg]
    exact ⟨rfl, storeLookup_storeDelete_self s key⟩
  · simp [InMemoryStoreAdapter.put, storeLookup_storeSet_self]

/-- C9 (witness): the TTL theorem applied to a store holding an entry
with TTL 60 s created at instant 0, read at instant 99999 (past the
expiry instant 60000): the read reports the key absent and deletes the
entry; and a `put` at instant 5 with TTL 7 creates the entry expiring
at 5 + 7000. -/
theorem ttl_expiry_semantics_witness :
    (staleEntry.ttl = 0 →
      (InMemoryStoreAdapter.get staleStore "user:42" 99999).1 = staleEntry.value) ∧
    (staleEntry.ttl ≠ 0 → staleEntry.expires < 99999 →
      (InMemoryStoreAdapter.get staleStore "user:42" 99999).1 = none ∧
      storeLookup (InMemoryStoreAdapter.get staleStore "user:42" 99999).2 "user:42" = none) ∧
    storeLookup (InMemoryStoreAdapter.put staleStore "user:42" (some "w") 7 5) "user:42" =
      some ⟨some "w", 7, 5, 5 + 1000 * ((7 : Nat) : Int)⟩ :=
  ttl_expiry_semantics staleStore "user:42" staleEntry 99999 (some "w") 7 5 rfl

/-- C10: the value `undefined` is the cache's absent-marker.  After
`put(key, undefined)` on a cache with no matching route, the entry
exists — `size` counts it — yet a cache-only `get` fails with
`KeyNotFoundError` and `containsKey` returns `false`.  On a route whose
store entry holds `undefined`, read-through treats the entry as a miss
and consults the read callback, and the read-around fallback treats it
as "not cached", failing with the composite error when the callback
fails. -/
theorem undefined_is_absent_marker {α : Type} (g : GlobalConfig) (key : String)
    (now now' : Int) (st : CacheState α) (cfg : KeyConfig α) (ctx : MatchedRouteContext)
    (entry : CacheEntry α) (fresh : Option α) (msg : String)
    (hr : ExtensorCache.findRoute st.registry key = Except.ok (some (cfg, ctx)))
    (hlk : storeLookup st.store key = some entry)
    (hv : entry.value = none)
    (ht : entry.ttl = 0) :
    ((ExtensorCache.put (⟨[], [], g⟩ : CacheState α) key none now).toOption.map
        (fun r => (ExtensorCache.get r.1 key now', ExtensorCache.containsKey r.1 key now',
          ExtensorCache.size r.1)) =
      some (Except.error CacheError.keyNotFound, false, 1)) ∧
    (cfg.readStrategy = ReadStrategies.readThrough →
      cfg.readCallback ctx 0 = Except.ok fresh →
      (ExtensorCache.get st key now).toOption.map (fun r => r.1) = some fresh) ∧
    (cfg.readStrategy = ReadStrategies.readAround →
      cfg.readCallback ctx 0 = Except.error msg →
      ExtensorCache.get st key now = Except.error (CacheError.readFallbackExhausted msg)) := by
  refine ⟨?_, ?_, ?_⟩
  · simp [ExtensorCache.put, ExtensorCache.get, ExtensorCache.findRoute,
      ExtensorCache.containsKey, ExtensorCache.size, InMemoryStoreAdapter.put,
      InMemoryStoreAdapter.get, InMemoryStoreAdapter.checkForFreshness,
      InMemoryStoreAdapter.size, storeSet, storeLookup, Except.toOption]
  · intro hrt hcb
    unfold ExtensorCache.get
    rw [hr]
    simp [hrt, hcb, hlk, hv, ht, InMemoryStoreAdapter.get,
      InMemoryStoreAdapter.checkForFreshness, Except.toOption]
  · intro hra hcb
    unfold ExtensorCache.get
    rw [hr]
    simp [hra, hcb, hlk, hv, ht, InMemoryStoreAdapter.get,
      InMemoryStoreAdapter.checkForFreshness, Except.toOption]

/-- C10 (witness): the absent-marker theorem on the fixture `rtState`:
the store's entry for `user:42` holds `undefined`, the read-through
route's callback answers `"fresh"`, and a fresh cache stores `undefined`
for key `k`. -/
theorem undefined_is_absent_marker_witness :
    ((ExtensorCache.put (⟨[], [], GlobalConfig.make none none none⟩ : CacheState String)
        "k" none 0).toOption.map
        (fun r => (ExtensorCache.get r.1 "k" 0, ExtensorCache.containsKey r.1 "k" 0,
          ExtensorCache.size r.1)) =
      some (Except.error CacheError.keyNotFound, false, 1)) ∧
    (rtCfg.readStrategy = ReadStrategies.readThrough →
      rtCfg.readCallback demoCtx 0 = Except.ok (some "fresh") →
      (ExtensorCache.get rtState "user:42" 0).toOption.map (fun r => r.1) =
        some (some "fresh")) ∧
    (rtCfg.readStrategy = ReadStrategies.readAround →
      rtCfg.readCallback demoCtx 0 = Except.error "down" →
      ExtensorCache.get rtState "user:42" 0 =
        Except.error (CacheError.readFallbackExhausted "down")) :=
  undefined_is_absent_marker (GlobalConfig.make none none none) "user:42" 0 0 rtState
    rtCfg demoCtx ⟨none, 0, 0, 0⟩ (some "fresh") "down" rfl rfl rfl rfl

/-- C1: evaluation of the merge `{ ...globalConfig, ...config }` at the
inputs of the repository's own `globalConfig.test.js`.  With a global
default `ttl = 300`, registering `new KeyConfig("test/{id}")` (no
explicit TTL) yields an effective TTL of 0 — the constructor's built-in
default overrides the global — and `put` stores the entry with TTL 0,
not 300; likewise a global `writeRetryCount = 7` is overridden by the
built-in 1.  Only the explicit per-pattern half of the claim holds:
`ttl = 600` wins over the global 300. -/
theorem register_ignores_global_defaults :
    c1State.globalConfig.ttl = 300 ∧
    (ExtensorCache.register c1State kcNoTtl).toOption.map
        (fun st => st.registry.map fun c => c.ttl) = some [0] ∧
    ((ExtensorCache.register c1State kcNoTtl) >>= fun st1 =>
        ExtensorCache.put st1 "test/123" (some "test-value") 0).toOption.map
        (fun r => r.1.store.map fun q => (q.1, q.2.ttl)) = some [("test/123", 0)] ∧
    (ExtensorCache.register c1State kcTtl600).toOption.map
        (fun st => st.registry.map fun c => c.ttl) = some [600] ∧
    (ExtensorCache.register
        (⟨[], [], { gTtl300 with writeRetryCount := 7 }⟩ : CacheState String)
        kcNoTtl).toOption.map
        (fun st => st.registry.map fun c => c.writeRetryCount) = some [1] :=
  ⟨rfl, rfl, rfl, rfl, rfl⟩

end ExtensorSpec
